import Mathlib

/-!
Shallow embedding of the pyChess rules engine (src/pyChess.py).

Board coordinates are (row, col) pairs with row 0 the first printed rank;
`Tile.get_tile(col, row)` in the source takes a (column offset, row offset)
pair and returns `None` off the board.  Player 1 has move direction +1,
player 2 direction -1 (see `Game.__init__`).
-/

namespace PyChess

/-- The two players (`Game.players[0]` and `Game.players[1]`). -/
inductive Player where
  | one : Player
  | two : Player
deriving DecidableEq, Repr, Fintype

/-- Source `Player.direction`: +1 for player 1, -1 for player 2 (`Game.__init__`). -/
def Player.direction : Player → Int
  | .one => 1
  | .two => -1

/-- Source `Game.get_opponent`: the other of the two players. -/
def Player.opponent : Player → Player
  | .one => .two
  | .two => .one

/-- The piece classes: Pawn, Knight, Bishop, Rook, Queen, King. -/
inductive Kind where
  | pawn | knight | bishop | rook | queen | king
deriving DecidableEq, Repr, Fintype

/-- A piece: its class, owner, and the per-kind mutable flags
(`Pawn._firstmove`, `Rook._has_moved` / `King._has_moved`).  For kinds that
have no such attribute in the source the flag fields are inert
(constructors leave them at `true` / `false`). -/
structure Piece where
  kind : Kind
  player : Player
  firstmove : Bool
  hasMoved : Bool
deriving DecidableEq, Repr, Fintype

/-- A freshly constructed piece, as the `__init__` methods build them:
`_firstmove = True` (Pawn), `_has_moved = False` (Rook/King). -/
def mkPiece (k : Kind) (pl : Player) : Piece :=
  ⟨k, pl, true, false⟩

/-- A board square: (row, col), both in `Fin 8`. -/
abbrev Sq := Fin 8 × Fin 8

/-- Source `Tile.get_tile` bounds logic: the square at integer coordinates
(r, c), or `none` when outside the 8×8 board. -/
def tileAt (r c : Int) : Option Sq :=
  if h : 0 ≤ r ∧ r < 8 ∧ 0 ≤ c ∧ c < 8 then
    some (⟨r.toNat, by omega⟩, ⟨c.toNat, by omega⟩)
  else
    none

/-- The board contents: `tile.piece` for every tile. -/
def Board := Sq → Option Piece

instance : DecidableEq Board :=
  fun b1 b2 => Fintype.decidablePiFintype b1 b2

/-- Assignment `tile.piece = p` at square `s`. -/
def Board.set (b : Board) (s : Sq) (p : Option Piece) : Board :=
  fun q => if q = s then p else b q

/-- The game state fields consulted by the rules: `board`,
`players[_currentPlayer]`, `_en_passant_target_tile`, `_halfmove_clock`. -/
structure Game where
  board : Board
  currentPlayer : Player
  epTarget : Option Sq
  halfmoveClock : Nat

theorem Game.ext_iff {g1 g2 : Game} :
    g1 = g2 ↔ g1.board = g2.board ∧ g1.currentPlayer = g2.currentPlayer ∧
      g1.epTarget = g2.epTarget ∧ g1.halfmoveClock = g2.halfmoveClock := by
  constructor
  · intro h; subst h; exact ⟨rfl, rfl, rfl, rfl⟩
  · rintro ⟨h1, h2, h3, h4⟩
    cases g1; cases g2; cases h1; cases h2; cases h3; cases h4; rfl

instance : DecidableEq Game :=
  fun _ _ => decidable_of_iff _ Game.ext_iff.symm

/-- All 64 squares in the row-major order the source loops over
(`for row in self.board: for tile in row`). -/
def allSquares : List Sq :=
  (List.finRange 8).flatMap (fun r => (List.finRange 8).map (fun c => (r, c)))

theorem mem_allSquares (s : Sq) : s ∈ allSquares := by
  rcases s with ⟨r, c⟩
  simp [allSquares, List.mem_flatMap, List.mem_map]

/-- Destination acceptability shared by every `is_move_allowed`:
`toTile.piece == None or fromTile.piece.player != toTile.piece.player`
(the moving piece is `self`, sitting on `fromTile`). -/
def targetOk (b : Board) (self : Piece) (tgt : Sq) : Bool :=
  match b tgt with
  | none => true
  | some p => p.player != self.player

/-- One direction of the `for i in range(1, 8)` scan shared by
`Rook.is_move_allowed` and `Bishop.is_move_allowed`: at step `i` the tile
`fromTile.get_tile(i*x, i*y)` is inspected; reaching `toTile` on an empty
or enemy square succeeds, any other occupied tile breaks the scan.
`x` is the column step and `y` the row step, as in the source. -/
def rayScan (b : Board) (self : Piece) (s : Sq) (x y : Int) (tgt : Sq) :
    Nat → Int → Bool
  | 0, _ => false
  | n + 1, i =>
    match tileAt ((s.1 : Int) + i * y) ((s.2 : Int) + i * x) with
    | none => rayScan b self s x y tgt n (i + 1)
    | some t =>
      if t = tgt ∧ targetOk b self tgt = true then true
      else if (b t).isSome = true then false
      else rayScan b self s x y tgt n (i + 1)

/-- The four straight directions of `Rook.is_move_allowed`, as
(column step, row step) pairs, in source order. -/
def rookDirs : List (Int × Int) := [(1, 0), (-1, 0), (0, 1), (0, -1)]

/-- The four diagonal directions of `Bishop.is_move_allowed`. -/
def bishopDirs : List (Int × Int) := [(1, 1), (-1, 1), (1, -1), (-1, -1)]

/-- Source `Rook.is_move_allowed`. -/
def rookAllowed (b : Board) (self : Piece) (s tgt : Sq) : Bool :=
  rookDirs.any (fun d => rayScan b self s d.1 d.2 tgt 7 1)

/-- Source `Bishop.is_move_allowed`. -/
def bishopAllowed (b : Board) (self : Piece) (s tgt : Sq) : Bool :=
  bishopDirs.any (fun d => rayScan b self s d.1 d.2 tgt 7 1)

/-- Source `Queen.is_move_allowed`: rook-style or bishop-style. -/
def queenAllowed (b : Board) (self : Piece) (s tgt : Sq) : Bool :=
  rookAllowed b self s tgt || bishopAllowed b self s tgt

/-- The eight knight offsets of `Knight.is_move_allowed`, as
(column, row) pairs in source order. -/
def knightOffsets : List (Int × Int) :=
  [(-1, -2), (1, -2), (2, -1), (2, 1), (1, 2), (-1, 2), (-2, 1), (-2, -1)]

/-- Source `Knight.is_move_allowed`. -/
def knightAllowed (b : Board) (self : Piece) (s tgt : Sq) : Bool :=
  decide (some tgt ∈ knightOffsets.map
    (fun d => tileAt ((s.1 : Int) + d.2) ((s.2 : Int) + d.1))) &&
  targetOk b self tgt

/-- The two forward-diagonal tiles of a pawn at `s` moving in direction
`d`: `fromTile.get_tile(-1, d)` and `fromTile.get_tile(1, d)`. -/
def pawnDiagTiles (s : Sq) (d : Int) : List (Option Sq) :=
  [tileAt ((s.1 : Int) + d) ((s.2 : Int) - 1),
   tileAt ((s.1 : Int) + d) ((s.2 : Int) + 1)]

/-- Source `Pawn.is_move_allowed`: single step, first-move double step, diagonal
capture, or en-passant capture onto the game's recorded target tile. -/
def pawnAllowed (g : Game) (self : Piece) (s tgt : Sq) : Bool :=
  let d := self.player.direction
  ((g.board tgt).isNone &&
      tileAt ((s.1 : Int) + d) (s.2 : Int) == some tgt) ||
  (self.firstmove && (g.board tgt).isNone &&
      tileAt ((s.1 : Int) + 2 * d) (s.2 : Int) == some tgt) ||
  ((match g.board tgt with
    | some p => p.player != self.player
    | none => false) &&
      decide (some tgt ∈ pawnDiagTiles s d)) ||
  ((g.epTarget == some tgt) && (g.board tgt).isNone &&
      decide (some tgt ∈ pawnDiagTiles s d))

/-- The eight adjacent tiles probed by `King.is_move_allowed`, in source
order of the `get_tile` tuple. -/
def kingNeighborTiles (s : Sq) : List (Option Sq) :=
  [tileAt ((s.1 : Int) - 1) ((s.2 : Int) - 1),
   tileAt (s.1 : Int) ((s.2 : Int) - 1),
   tileAt ((s.1 : Int) + 1) ((s.2 : Int) - 1),
   tileAt ((s.1 : Int) - 1) (s.2 : Int),
   tileAt ((s.1 : Int) + 1) (s.2 : Int),
   tileAt ((s.1 : Int) - 1) ((s.2 : Int) + 1),
   tileAt (s.1 : Int) ((s.2 : Int) + 1),
   tileAt ((s.1 : Int) + 1) ((s.2 : Int) + 1)]

/-- The `is_basic_move` part of `King.is_move_allowed`. -/
def kingBasic (b : Board) (self : Piece) (s tgt : Sq) : Bool :=
  decide (some tgt ∈ kingNeighborTiles s) && targetOk b self tgt

/-- Source `Game.get_king_tile`: the first tile in row-major order holding a
King of `p`. -/
def getKingTile (g : Game) (p : Player) : Option Sq :=
  allSquares.find? (fun s =>
    match g.board s with
    | some pc => pc.kind == Kind.king && pc.player == p
    | none => false)

/-- The kings-distance veto at the end of `King.is_move_allowed`.  The
source compares both `toTile.col` and `toTile.row` against the opponent
king's **row** (`opponent_king_tile.row` twice — `col` is never read). -/
def kingDistVeto (g : Game) (self : Piece) (tgt : Sq) : Bool :=
  match getKingTile g self.player.opponent with
  | some okt =>
      decide (((tgt.2 : Int) - (okt.1 : Int)).natAbs ≤ 1) &&
      decide (((tgt.1 : Int) - (okt.1 : Int)).natAbs ≤ 1)
  | none => false

/-- The shared `is_move_allowed` with `simulate=True`: per-kind geometry, castling
disabled.  This is what `is_square_attacked` and `has_legal_moves` probe. -/
def isMoveAllowedSim (g : Game) (self : Piece) (s tgt : Sq) : Bool :=
  match self.kind with
  | .pawn => pawnAllowed g self s tgt
  | .knight => knightAllowed g.board self s tgt
  | .bishop => bishopAllowed g.board self s tgt
  | .rook => rookAllowed g.board self s tgt
  | .queen => queenAllowed g.board self s tgt
  | .king => kingBasic g.board self s tgt && !kingDistVeto g self tgt

/-- Source `Game.is_square_attacked`: some piece of `byP` pseudo-legally reaches
`sq` in simulate mode. -/
def isSquareAttacked (g : Game) (sq : Sq) (byP : Player) : Bool :=
  allSquares.any (fun s =>
    match g.board s with
    | some pc => pc.player == byP && isMoveAllowedSim g pc s sq
    | none => false)

/-- Source `Game.is_king_in_check`. -/
def isKingInCheck (g : Game) (p : Player) : Bool :=
  match getKingTile g p with
  | none => false
  | some kt => isSquareAttacked g kt p.opponent

/-- Tile occupancy test used by the castling `path_clear` computation:
`fromTile.get_tile(dc, 0).piece is None`.  (For an off-board tile the
source would raise `AttributeError`; with `toTile` a real square every
tile this is applied at is on the board, except `get_tile(-3, 0)` for a
king on column 2, where the source crashes instead of castling.) -/
def emptyAtOff (g : Game) (f : Sq) (dc : Int) : Bool :=
  match tileAt (f.1 : Int) ((f.2 : Int) + dc) with
  | some u => (g.board u).isNone
  | none => true

/-- The castling eligibility block of `King.is_move_allowed` (only
reached when `simulate` is false): the king has not moved, the move is
two columns along one row, the king is not in check, the `path_clear`
squares are empty, the expected rook tile holds an unmoved Rook, and
neither the passed-over square nor the destination is attacked.
`isinstance(rook_tile.piece, Rook)` also matches a Queen, but a Queen
there either has no `_has_moved` attribute (the source raises
`AttributeError`, so the move is never accepted) or has it `True` from
`Rook.post_move_action` (refused); `kind == rook` is therefore the
acceptance-equivalent test. -/
def castlingOk (g : Game) (self : Piece) (f tgt : Sq) : Bool :=
  !self.hasMoved && (f.1 == tgt.1) &&
    (((f.2 : Int) - (tgt.2 : Int)).natAbs == 2) &&
    !isKingInCheck g self.player &&
    (let rookTile := if (f.2 : Nat) < (tgt.2 : Nat) then tileAt (f.1 : Int) ((f.2 : Int) + 3)
                     else tileAt (f.1 : Int) ((f.2 : Int) - 4)
     let pathClear := if (f.2 : Nat) < (tgt.2 : Nat) then emptyAtOff g f 1 && emptyAtOff g f 2
                      else emptyAtOff g f (-1) && emptyAtOff g f (-2) &&
                           emptyAtOff g f (-3)
     let passSq := if (f.2 : Nat) < (tgt.2 : Nat) then tileAt (f.1 : Int) ((f.2 : Int) + 1)
                   else tileAt (f.1 : Int) ((f.2 : Int) - 1)
     pathClear &&
     (match rookTile with
      | some rt =>
        match g.board rt with
        | some rp => rp.kind == Kind.rook && !rp.hasMoved
        | none => false
      | none => false) &&
     (match passSq with
      | some ps => !isSquareAttacked g ps self.player.opponent
      | none => false) &&
     !isSquareAttacked g tgt self.player.opponent)

/-- Source `Piece.is_move_allowed` with an explicit `simulate` flag: identical
to the simulate version except that the King also accepts castling when
`simulate` is false; the kings-distance veto applies in both modes. -/
def isMoveAllowed (g : Game) (self : Piece) (f tgt : Sq) (simulate : Bool) :
    Bool :=
  match self.kind with
  | .king =>
    (kingBasic g.board self f tgt || (!simulate && castlingOk g self f tgt)) &&
      !kingDistVeto g self tgt
  | _ => isMoveAllowedSim g self f tgt

/-- Model of Python list indexing as `CommandMove.execute`
and `Pawn.post_move_action` use it: indices in `[0, 8)` are themselves,
indices in `[-8, 0)` wrap around to `8 + i`, and anything else raises
`IndexError`. -/
def pyIndex (i : Int) : Option (Fin 8) :=
  if h : 0 ≤ i ∧ i < 8 then some ⟨i.toNat, by omega⟩
  else if h2 : -8 ≤ i ∧ i < 0 then some ⟨(i + 8).toNat, by omega⟩
  else none

/-- The per-kind `post_move_action` hooks, run on the board in which the
piece already sits on `tgt`:
* Pawn: clear `_firstmove`; if `tgt` is the recorded en-passant target,
  empty `board[tgt.row - direction][tgt.col]` (Python list indexing; an
  out-of-list index would raise, which never happens in the game flow).
* Rook: set `_has_moved`.
* Queen: inherits `Rook.post_move_action` through the MRO, so it also
  sets `_has_moved`.
* King: set `_has_moved`; on a two-column move relocate the rook from
  `toTile.get_tile(±…, 0)` and mark it moved (`None` tiles or a missing
  rook would raise in the source; unreachable after a castling
  acceptance).
* Knight / Bishop: nothing. -/
def postMoveAction (g : Game) (self : Piece) (f tgt : Sq) : Game :=
  match self.kind with
  | .pawn =>
    let g1 : Game :=
      { g with board := g.board.set tgt (some { self with firstmove := false }) }
    if g1.epTarget == some tgt then
      match pyIndex ((tgt.1 : Int) - self.player.direction) with
      | some r => { g1 with board := g1.board.set (r, tgt.2) none }
      | none => g1
    else g1
  | .rook =>
    { g with board := g.board.set tgt (some { self with hasMoved := true }) }
  | .queen =>
    { g with board := g.board.set tgt (some { self with hasMoved := true }) }
  | .king =>
    let g1 : Game :=
      { g with board := g.board.set tgt (some { self with hasMoved := true }) }
    if ((f.2 : Int) - (tgt.2 : Int)).natAbs = 2 then
      let rookFrom := if (f.2 : Nat) < (tgt.2 : Nat) then
                        tileAt (tgt.1 : Int) ((tgt.2 : Int) + 1)
                      else tileAt (tgt.1 : Int) ((tgt.2 : Int) - 2)
      let rookTo := if (f.2 : Nat) < (tgt.2 : Nat) then
                      tileAt (tgt.1 : Int) ((tgt.2 : Int) - 1)
                    else tileAt (tgt.1 : Int) ((tgt.2 : Int) + 1)
      match rookFrom, rookTo with
      | some rf, some rt =>
        match g1.board rf with
        | some rp =>
          { g1 with board :=
              (g1.board.set rt (some { rp with hasMoved := true })).set rf none }
        | none => g1
      | _, _ => g1
    else g1
  | _ => g

/-- Source `Piece.move`: validate with `is_move_allowed`, relocate the piece,
reject and revert if the mover's own king is then in check, otherwise
run `post_move_action`.  Returns the success flag and the state. -/
def pieceMove (g : Game) (f tgt : Sq) : Bool × Game :=
  match g.board f with
  | none => (false, g)
  | some self =>
    if isMoveAllowed g self f tgt false then
      let original := g.board tgt
      let b1 := (g.board.set tgt (some self)).set f none
      let g1 : Game := { g with board := b1 }
      if isKingInCheck g1 self.player then
        (false, { g with board := (b1.set f (some self)).set tgt original })
      else
        (true, postMoveAction g1 self f tgt)
    else (false, g)

/-- Source `Game.has_legal_moves`: some piece of `p` has a simulate-mode
pseudo-legal move whose hypothetical application leaves `p`'s king out
of check. -/
def hasLegalMoves (g : Game) (p : Player) : Bool :=
  allSquares.any (fun f =>
    match g.board f with
    | some pc =>
      pc.player == p &&
      allSquares.any (fun tgt =>
        isMoveAllowedSim g pc f tgt &&
        !isKingInCheck
          { g with board := (g.board.set tgt (g.board f)).set f none } p)
    | none => false)

/-- Source `Game._has_sufficient_material`: any pawn/rook/queen on the board,
or more than one knight-or-bishop in total.  (The `isinstance(p, Bishop)`
test in the source would also count a Queen, but any queen already
satisfies the first disjunct, so the count is only reached when there is
none.) -/
def hasSufficientMaterial (g : Game) : Bool :=
  (allSquares.any (fun s =>
    match g.board s with
    | some p => p.kind == Kind.pawn || p.kind == Kind.rook ||
                p.kind == Kind.queen
    | none => false)) ||
  ((allSquares.filter (fun s =>
      match g.board s with
      | some p => p.kind == Kind.knight
      | none => false)).length +
   (allSquares.filter (fun s =>
      match g.board s with
      | some p => p.kind == Kind.bishop
      | none => false)).length > 1)

/-- What `Game.run` decides at the top of a turn, before asking for
input. -/
inductive Outcome where
  | repetitionDraw : Outcome
  | fiftyMoveDraw : Outcome
  | insufficientMaterialDraw : Outcome
  | checkmate : Player → Outcome
  | stalemate : Outcome
  | awaitMove : Outcome
deriving DecidableEq, Repr

/-- The start-of-turn classification in `Game.run`: increment the
occurrence count of the current position hash (`priorCount` is the count
stored for it before this turn), then check threefold repetition, the
fifty-move rule, insufficient material, and finally
checkmate/stalemate via `has_legal_moves`. -/
def turnOutcome (g : Game) (priorCount : Nat) : Outcome :=
  if priorCount + 1 ≥ 3 then .repetitionDraw
  else if g.halfmoveClock ≥ 100 then .fiftyMoveDraw
  else if !hasSufficientMaterial g then .insufficientMaterialDraw
  else if !hasLegalMoves g g.currentPlayer then
    if isKingInCheck g g.currentPlayer then .checkmate g.currentPlayer.opponent
    else .stalemate
  else .awaitMove

/-- The promotion choices `Game.promote_pawn` keeps asking for until one
of Q/R/B/N is supplied. -/
inductive PromoChoice where
  | q | r | b | n
deriving DecidableEq, Repr

/-- The replacement piece `Game.promote_pawn` constructs. -/
def promoPiece : PromoChoice → Player → Piece
  | .q, pl => mkPiece Kind.queen pl
  | .r, pl => mkPiece Kind.rook pl
  | .b, pl => mkPiece Kind.bishop pl
  | .n, pl => mkPiece Kind.knight pl

/-- Source `Game.promote_pawn`: destroy the pawn on `tgt` and install the newly
constructed piece of the chosen kind. -/
def promotePawn (g : Game) (tgt : Sq) (choice : PromoChoice) : Game :=
  match g.board tgt with
  | some pc => { g with board := g.board.set tgt (some (promoPiece choice pc.player)) }
  | none => g

/-- Source `CommandMove.execute` on a two-square request already converted to
integer indices (`fr = int(FROM[1]) - 1`, `fc = ord(FROM[0]) - ord('a')`,
likewise `tr`/`tc`): resolve both tiles with Python list indexing (an
`IndexError` propagates before anything is mutated), clear the en-passant
target, reject an empty origin or an opponent piece, run `Piece.move`,
and on success update the halfmove clock, record a new en-passant target
after a pawn double-step, promote a pawn on the far rank (the choice is
the external input `choice`), and switch the side to move. -/
def executeMove (g : Game) (choice : PromoChoice) (fr fc tr tc : Int) :
    Game :=
  match pyIndex fr, pyIndex fc, pyIndex tr, pyIndex tc with
  | some r1, some c1, some r2, some c2 =>
    let f : Sq := (r1, c1)
    let tgt : Sq := (r2, c2)
    let g1 : Game := { g with epTarget := none }
    match g1.board f with
    | none => g1
    | some piece =>
      if piece.player != g1.currentPlayer then g1
      else
        let isPawnMove := piece.kind == Kind.pawn
        let isCapture := (g1.board tgt).isSome
        match pieceMove g1 f tgt with
        | (false, g2) => g2
        | (true, g2) =>
          let g3 : Game :=
            if isPawnMove || isCapture then { g2 with halfmoveClock := 0 }
            else { g2 with halfmoveClock := g2.halfmoveClock + 1 }
          let g4 : Game :=
            match g3.board tgt with
            | some moved =>
              if moved.kind == Kind.pawn then
                let g5 : Game :=
                  if ((f.1 : Int) - (tgt.1 : Int)).natAbs == 2 then
                    { g3 with epTarget :=
                        tileAt ((f.1 : Int) + moved.player.direction) (f.2 : Int) }
                  else g3
                if (moved.player.direction == 1 && (tgt.1 : Nat) == 7) ||
                   (moved.player.direction == -1 && (tgt.1 : Nat) == 0) then
                  promotePawn g5 tgt choice
                else g5
              else g3
            | none => g3
          { g4 with currentPlayer := g4.currentPlayer.opponent }
  | _, _, _, _ => g

/-- Source `Tile.isBlack` as `Game._init_board` assigns it:
`(row + col) % 2 == 0`. -/
def tileIsBlack (s : Sq) : Bool :=
  ((s.1 : Nat) + (s.2 : Nat)) % 2 == 0

/-- The board produced by `StartPositionBuilder.set_default_position`:
pawns of player 1 on row 1 and of player 2 on row 6, and on rows 0
(player 1) and 7 (player 2) the file pattern
Rook, Knight, Bishop, King, Queen, Bishop, Knight, Rook. -/
def backRankKind : Fin 8 → Kind
  | 0 => Kind.rook
  | 1 => Kind.knight
  | 2 => Kind.bishop
  | 3 => Kind.king
  | 4 => Kind.queen
  | 5 => Kind.bishop
  | 6 => Kind.knight
  | 7 => Kind.rook

/-- The initial board contents after `StartPositionBuilder`. -/
def initialBoard : Board := fun s =>
  if s.1 = 1 then some (mkPiece Kind.pawn Player.one)
  else if s.1 = 6 then some (mkPiece Kind.pawn Player.two)
  else if s.1 = 0 then some (mkPiece (backRankKind s.2) Player.one)
  else if s.1 = 7 then some (mkPiece (backRankKind s.2) Player.two)
  else none

/-- The fresh `Game()` state: initial board, player 1 to move, no
en-passant target, zero halfmove clock. -/
def initialGame : Game :=
  { board := initialBoard
    currentPlayer := Player.one
    epTarget := none
    halfmoveClock := 0 }

/-! ### Basic lemmas about the embedding -/

theorem tileAt_eq_some {r c : Int} {u : Sq} :
    tileAt r c = some u ↔ (u.1 : Int) = r ∧ (u.2 : Int) = c := by
  unfold tileAt
  rcases u with ⟨ur, uc⟩
  have hur := ur.isLt
  have huc := uc.isLt
  split
  · next h =>
    simp only [Option.some.injEq, Prod.mk.injEq, Fin.ext_iff]
    constructor
    · rintro ⟨e1, e2⟩
      constructor <;> simp only [← e1, ← e2] <;> omega
    · rintro ⟨e1, e2⟩
      constructor <;> omega
  · next h =>
    constructor
    · intro he; cases he
    · rintro ⟨e1, e2⟩
      exact absurd ⟨by omega, by omega, by omega, by omega⟩ h

theorem tileAt_of_bounds {r c : Int} (h : 0 ≤ r ∧ r < 8 ∧ 0 ≤ c ∧ c < 8) :
    ∃ u : Sq, tileAt r c = some u ∧ (u.1 : Int) = r ∧ (u.2 : Int) = c := by
  refine ⟨(⟨r.toNat, by omega⟩, ⟨c.toNat, by omega⟩), ?_, by simp; omega,
    by simp; omega⟩
  rw [tileAt_eq_some]
  constructor <;> simp <;> omega

theorem Board.set_self (b : Board) (s : Sq) (p : Option Piece) :
    (b.set s p) s = p := by
  simp [Board.set]

theorem Board.set_other (b : Board) (s q : Sq) (p : Option Piece)
    (h : q ≠ s) : (b.set s p) q = b q := by
  simp [Board.set, h]

/-- Undoing the tentative relocation in `Piece.move` restores the board
exactly. -/
theorem Board.revert (b : Board) (f tgt : Sq) (self : Piece)
    (hf : b f = some self) :
    ((((b.set tgt (some self)).set f none).set f (some self)).set tgt
      (b tgt)) = b := by
  funext q
  by_cases hq1 : q = tgt
  · subst hq1; simp [Board.set]
  · by_cases hq2 : q = f
    · subst hq2; simp [Board.set, hq1, hf]
    · simp [Board.set, hq1, hq2]

theorem targetOk_false_isSome {b : Board} {self : Piece} {tgt : Sq}
    (h : targetOk b self tgt = false) : (b tgt).isSome = true := by
  unfold targetOk at h
  cases hb : b tgt with
  | none => rw [hb] at h; cases h
  | some p => simp

/-- Exact description of one direction of the Rook/Bishop scan: it
accepts `tgt` iff `tgt` sits on the ray at some step within the fuel,
the destination test passes, and every strictly earlier on-board tile is
empty. -/
theorem rayScan_eq_true_iff (b : Board) (self : Piece) (s : Sq) (x y : Int)
    (tgt : Sq) :
    ∀ (n : Nat) (i : Int),
      rayScan b self s x y tgt n i = true ↔
        ∃ k : Int, i ≤ k ∧ k < i + n ∧
          tileAt ((s.1 : Int) + k * y) ((s.2 : Int) + k * x) = some tgt ∧
          targetOk b self tgt = true ∧
          ∀ j : Int, i ≤ j → j < k →
            ∀ u : Sq,
              tileAt ((s.1 : Int) + j * y) ((s.2 : Int) + j * x) = some u →
              b u = none := by
  intro n
  induction n with
  | zero =>
    intro i
    constructor
    · intro hh; exact absurd hh (by simp [rayScan])
    · rintro ⟨k, hk1, hk2, -⟩
      exfalso; omega
  | succ n ih =>
    intro i
    cases h : tileAt ((s.1 : Int) + i * y) ((s.2 : Int) + i * x) with
    | none =>
      simp only [rayScan, h]
      rw [ih (i + 1)]
      constructor
      · rintro ⟨k, hk1, hk2, ht, hok, hbe⟩
        refine ⟨k, by omega, by omega, ht, hok, ?_⟩
        intro j hj1 hj2 u hu
        rcases eq_or_lt_of_le hj1 with he | hlt
        · rw [← he] at hu; rw [h] at hu; cases hu
        · exact hbe j (by omega) hj2 u hu
      · rintro ⟨k, hk1, hk2, ht, hok, hbe⟩
        have hki : k ≠ i := by
          rintro rfl; rw [h] at ht; cases ht
        refine ⟨k, by omega, by omega, ht, hok, ?_⟩
        intro j hj1 hj2 u hu
        exact hbe j (by omega) hj2 u hu
    | some t =>
      by_cases hacc : t = tgt ∧ targetOk b self tgt = true
      · simp only [rayScan, h, if_pos hacc]
        constructor
        · intro _
          exact ⟨i, le_refl i, by omega, by rw [h, hacc.1], hacc.2,
            fun j hj1 hj2 u _ => by exfalso; omega⟩
        · intro _; trivial
      · by_cases hocc : (b t).isSome = true
        · simp only [rayScan, h, if_neg hacc, if_pos hocc]
          constructor
          · intro hh; cases hh
          · rintro ⟨k, hk1, hk2, ht, hok', hbe⟩
            exfalso
            rcases eq_or_lt_of_le hk1 with he | hlt
            · rw [← he] at ht; rw [h] at ht
              exact hacc ⟨Option.some.inj ht, hok'⟩
            · have hbt := hbe i (le_refl i) hlt t h
              rw [hbt] at hocc; cases hocc
        · have hnone : b t = none := by
            cases hb : b t with
            | none => rfl
            | some p => rw [hb] at hocc; simp at hocc
          simp only [rayScan, h, if_neg hacc, if_neg hocc]
          rw [ih (i + 1)]
          constructor
          · rintro ⟨k, hk1, hk2, ht, hok, hbe⟩
            refine ⟨k, by omega, by omega, ht, hok, ?_⟩
            intro j hj1 hj2 u hu
            rcases eq_or_lt_of_le hj1 with he | hlt
            · rw [← he] at hu; rw [h] at hu
              rw [← Option.some.inj hu]; exact hnone
            · exact hbe j (by omega) hj2 u hu
          · rintro ⟨k, hk1, hk2, ht, hok, hbe⟩
            have hki : k ≠ i := by
              rintro rfl; rw [h] at ht
              exact hacc ⟨Option.some.inj ht, hok⟩
            refine ⟨k, by omega, by omega, ht, hok, ?_⟩
            intro j hj1 hj2 u hu
            exact hbe j (by omega) hj2 u hu

/-- All eight ray directions a Rook, Bishop or Queen scan can use. -/
def allDirs : List (Int × Int) := rookDirs ++ bishopDirs

/-- Repackaged acceptance facts for a full scan
(`for i in range(1, 8)`). -/
theorem scan_true_elim {b : Board} {self : Piece} {s : Sq} {x y : Int}
    {tgt : Sq} (h : rayScan b self s x y tgt 7 1 = true) :
    ∃ k : Int, 1 ≤ k ∧ k < 8 ∧
      tileAt ((s.1 : Int) + k * y) ((s.2 : Int) + k * x) = some tgt ∧
      targetOk b self tgt = true ∧
      ∀ j : Int, 1 ≤ j → j < k →
        ∀ u : Sq,
          tileAt ((s.1 : Int) + j * y) ((s.2 : Int) + j * x) = some u →
          b u = none := by
  obtain ⟨k, hk1, hk2, ht, hok, hbe⟩ :=
    (rayScan_eq_true_iff b self s x y tgt 7 1).mp h
  exact ⟨k, hk1, by omega, ht, hok, hbe⟩

/-- A square reached by stepping `k ≥ 1` times along one of the eight
directions determines the direction and the step count. -/
theorem ray_dir_unique {x y x' y' k k' : Int}
    (hd : (x, y) ∈ allDirs) (hd' : (x', y') ∈ allDirs)
    (hk : 1 ≤ k) (hk' : 1 ≤ k')
    (h1 : k * y = k' * y') (h2 : k * x = k' * x') :
    x = x' ∧ y = y' ∧ k = k' := by
  simp only [allDirs, rookDirs, bishopDirs, List.mem_append, List.mem_cons,
    List.not_mem_nil, or_false, Prod.mk.injEq] at hd hd'
  rcases hd with (⟨rfl, rfl⟩ | ⟨rfl, rfl⟩ | ⟨rfl, rfl⟩ | ⟨rfl, rfl⟩) |
    (⟨rfl, rfl⟩ | ⟨rfl, rfl⟩ | ⟨rfl, rfl⟩ | ⟨rfl, rfl⟩) <;>
  rcases hd' with (⟨rfl, rfl⟩ | ⟨rfl, rfl⟩ | ⟨rfl, rfl⟩ | ⟨rfl, rfl⟩) |
    (⟨rfl, rfl⟩ | ⟨rfl, rfl⟩ | ⟨rfl, rfl⟩ | ⟨rfl, rfl⟩) <;>
  omega

/-- No direction-list scan can accept a destination whose own ray is
blocked strictly before it. -/
theorem anyDirs_accept_false {dirs : List (Int × Int)}
    (hsub : ∀ d ∈ dirs, d ∈ allDirs)
    {b : Board} {self : Piece} {s tgt : Sq} {x y k : Int}
    (hd : (x, y) ∈ allDirs) (hk : 1 ≤ k)
    (ht : tileAt ((s.1 : Int) + k * y) ((s.2 : Int) + k * x) = some tgt)
    (hblock : ∃ j : Int, 1 ≤ j ∧ j < k ∧ ∃ u : Sq,
        tileAt ((s.1 : Int) + j * y) ((s.2 : Int) + j * x) = some u ∧
        (b u).isSome = true) :
    (dirs.any fun d => rayScan b self s d.1 d.2 tgt 7 1) = false := by
  cases hval : (dirs.any fun d => rayScan b self s d.1 d.2 tgt 7 1) with
  | false => rfl
  | true =>
    exfalso
    obtain ⟨d', hd'mem, hscan⟩ := List.any_eq_true.mp hval
    obtain ⟨dx, dy⟩ := d'
    dsimp only at hscan
    obtain ⟨k', hk1', hk2', ht', hok', hbe'⟩ := scan_true_elim hscan
    obtain ⟨e1, e2⟩ := tileAt_eq_some.mp ht
    obtain ⟨e1', e2'⟩ := tileAt_eq_some.mp ht'
    obtain ⟨rfl, rfl, rfl⟩ :=
      ray_dir_unique hd (hsub _ hd'mem) hk hk1' (by omega) (by omega)
    obtain ⟨j, hj1, hj2, u, hu, husome⟩ := hblock
    have hnone := hbe' j hj1 hj2 u hu
    rw [hnone] at husome
    cases husome

/-- No direction-list scan accepts a destination held by the mover's own
side. -/
theorem anyDirs_accept_false_own {dirs : List (Int × Int)}
    {b : Board} {self : Piece} {s tgt : Sq} {p : Piece}
    (hp : b tgt = some p) (hpl : p.player = self.player) :
    (dirs.any fun d => rayScan b self s d.1 d.2 tgt 7 1) = false := by
  cases hval : (dirs.any fun d => rayScan b self s d.1 d.2 tgt 7 1) with
  | false => rfl
  | true =>
    exfalso
    obtain ⟨d', hd'mem, hscan⟩ := List.any_eq_true.mp hval
    obtain ⟨k', hk1', hk2', ht', hok', hbe'⟩ := scan_true_elim hscan
    unfold targetOk at hok'
    rw [hp] at hok'
    simp only [bne_iff_ne, ne_eq] at hok'
    exact hok' hpl

/-- A board described by an explicit association list of occupied
squares (everything else empty). -/
def boardOfList (l : List (Sq × Piece)) : Board := fun s =>
  (l.find? (fun e => e.1 == s)).map Prod.snd

/-- A failed `Piece.move` leaves the game state exactly as it was. -/
theorem pieceMove_fail {g : Game} {f tgt : Sq}
    (h : (pieceMove g f tgt).1 = false) : (pieceMove g f tgt).2 = g := by
  unfold pieceMove at h ⊢
  cases hb : g.board f with
  | none => simp [hb]
  | some self =>
    simp only [hb] at h ⊢
    by_cases ha : isMoveAllowed g self f tgt false
    · simp only [ha, if_true] at h ⊢
      by_cases hc : isKingInCheck
          { g with board := (g.board.set tgt (some self)).set f none }
          self.player
      · simp only [hc, if_true]
        rw [Game.ext_iff]
        refine ⟨?_, rfl, rfl, rfl⟩
        exact Board.revert g.board f tgt self hb
      · simp [hc] at h
    · simp [ha]

end PyChess

namespace PyChess

/-! ### C4: ray blocking for Rook, Bishop and Queen -/

/-- C4.  For every board and every Rook, Bishop, or Queen move whose
destination lies on one of the eight scan rays (`k ≥ 1` steps along a
direction of `allDirs`): if any square strictly between the origin and
the destination on that ray is occupied by either side, none of the
three ray validators accepts the move, regardless of what occupies the
destination; and when the destination itself is occupied, the move is
only accepted if the occupant belongs to the enemy — an own piece on
the destination is always refused. -/
theorem c4_ray_blocking (b : Board) (self : Piece) (s tgt : Sq)
    (x y k : Int) (hd : (x, y) ∈ allDirs) (hk : 1 ≤ k)
    (ht : tileAt ((s.1 : Int) + k * y) ((s.2 : Int) + k * x) = some tgt) :
    ((∃ j : Int, 1 ≤ j ∧ j < k ∧ ∃ u : Sq,
        tileAt ((s.1 : Int) + j * y) ((s.2 : Int) + j * x) = some u ∧
        (b u).isSome = true) →
      rookAllowed b self s tgt = false ∧ bishopAllowed b self s tgt = false ∧
      queenAllowed b self s tgt = false) ∧
    (∀ p : Piece, b tgt = some p → p.player = self.player →
      rookAllowed b self s tgt = false ∧ bishopAllowed b self s tgt = false ∧
      queenAllowed b self s tgt = false) := by
  constructor
  · intro hblock
    have hr : rookAllowed b self s tgt = false :=
      anyDirs_accept_false (fun d hdm => List.mem_append_left _ hdm)
        hd hk ht hblock
    have hbi : bishopAllowed b self s tgt = false :=
      anyDirs_accept_false (fun d hdm => List.mem_append_right _ hdm)
        hd hk ht hblock
    exact ⟨hr, hbi, by simp [queenAllowed, hr, hbi]⟩
  · intro p hp hpl
    have hr : rookAllowed b self s tgt = false :=
      anyDirs_accept_false_own hp hpl
    have hbi : bishopAllowed b self s tgt = false :=
      anyDirs_accept_false_own hp hpl
    exact ⟨hr, hbi, by simp [queenAllowed, hr, hbi]⟩

/-- Blocked-ray board for the C4 witness: a pawn interposed on the a1–e1
ray. -/
def bC4 : Board :=
  boardOfList [(((0 : Fin 8), (2 : Fin 8)), mkPiece Kind.pawn Player.two)]

def rookW : Piece := mkPiece Kind.rook Player.one

/-- Witness for C4 at a concrete blocked position. -/
theorem c4_ray_blocking_witness :
    rookAllowed bC4 rookW ((0 : Fin 8), (0 : Fin 8))
        ((0 : Fin 8), (4 : Fin 8)) = false ∧
    bishopAllowed bC4 rookW ((0 : Fin 8), (0 : Fin 8))
        ((0 : Fin 8), (4 : Fin 8)) = false ∧
    queenAllowed bC4 rookW ((0 : Fin 8), (0 : Fin 8))
        ((0 : Fin 8), (4 : Fin 8)) = false :=
  (c4_ray_blocking bC4 rookW ((0 : Fin 8), (0 : Fin 8))
      ((0 : Fin 8), (4 : Fin 8)) 1 0 4 (by decide) (by decide) (by decide)).1
    ⟨2, by decide, by decide,
      ⟨((0 : Fin 8), (2 : Fin 8)), by decide, by decide⟩⟩

end PyChess

namespace PyChess

/-! ### C5: the king's non-castling move rule -/

theorem some_eq_tileAt_iff {r c : Int} {u : Sq} :
    some u = tileAt r c ↔ (u.1 : Int) = r ∧ (u.2 : Int) = c := by
  rw [eq_comm, tileAt_eq_some]

/-- Plain adjacency of two distinct squares (row and column each within
one). -/
def adjacentB (f tgt : Sq) : Bool :=
  decide (((f.1 : Int) - (tgt.1 : Int)).natAbs ≤ 1) &&
  decide (((f.2 : Int) - (tgt.2 : Int)).natAbs ≤ 1) &&
  (f != tgt)

/-- The king's eight-neighbour probe list contains exactly the adjacent
squares. -/
theorem mem_kingNeighborTiles_iff (f tgt : Sq) :
    some tgt ∈ kingNeighborTiles f ↔ adjacentB f tgt = true := by
  simp only [kingNeighborTiles, List.mem_cons, List.not_mem_nil, or_false,
    some_eq_tileAt_iff, adjacentB, Bool.and_eq_true, decide_eq_true_eq,
    bne_iff_ne, ne_eq, Prod.ext_iff, Fin.ext_iff, not_and]
  omega

/-- C5 (amended).  When the castling block does not fire, a king move is
accepted exactly when the destination is one of the eight adjacent
squares, is empty or enemy-occupied, and survives the kings-distance
veto (which compares the destination's column and row each against the
opponent king's row). -/
theorem c5_king_nonCastling (g : Game) (self : Piece) (f tgt : Sq)
    (hk : self.kind = Kind.king) (hc : castlingOk g self f tgt = false) :
    isMoveAllowed g self f tgt false =
      (adjacentB f tgt && targetOk g.board self tgt &&
       !kingDistVeto g self tgt) := by
  have hmem : decide (some tgt ∈ kingNeighborTiles f) = adjacentB f tgt := by
    cases hb : adjacentB f tgt with
    | true => simp [mem_kingNeighborTiles_iff, hb]
    | false =>
      simp only [decide_eq_false_iff_not]
      rw [mem_kingNeighborTiles_iff, hb]
      simp
  obtain ⟨kk, pl, fm, hm⟩ := self
  simp only [Piece.kind] at hk
  subst hk
  simp only [isMoveAllowed, hc, Bool.not_false, Bool.true_and, Bool.and_false,
    Bool.or_false, kingBasic, hmem]

/-- Board for the C5 counterexample: player 1's king on (4,4), player
2's king on (4,0). -/
def kingW : Piece := mkPiece Kind.king Player.one

def gC5 : Game :=
  { board := boardOfList
      [(((4 : Fin 8), (4 : Fin 8)), kingW),
       (((4 : Fin 8), (0 : Fin 8)), mkPiece Kind.king Player.two)]
    currentPlayer := Player.one
    epTarget := none
    halfmoveClock := 0 }

/-- Counterexample to C5 as stated: the move from (4,4) to the empty
adjacent square (5,4) satisfies the claim's conditions but is refused,
because the kings-distance veto fires (the opponent king's row is 4). -/
theorem c5_counterexample :
    ¬ (isMoveAllowed gC5 kingW ((4 : Fin 8), (4 : Fin 8))
          ((5 : Fin 8), (4 : Fin 8)) false = true ↔
        (adjacentB ((4 : Fin 8), (4 : Fin 8)) ((5 : Fin 8), (4 : Fin 8)) &&
         targetOk gC5.board kingW ((5 : Fin 8), (4 : Fin 8))) = true) := by
  decide

/-- C5 witness board: the opponent king is far away, so the veto does
not fire and the amended equation is exercised on both sides. -/
def gC5w : Game :=
  { board := boardOfList
      [(((4 : Fin 8), (4 : Fin 8)), kingW),
       (((0 : Fin 8), (0 : Fin 8)), mkPiece Kind.king Player.two)]
    currentPlayer := Player.one
    epTarget := none
    halfmoveClock := 0 }

/-- Witness for the amended C5 at a concrete position. -/
theorem c5_king_nonCastling_witness :
    castlingOk gC5w kingW ((4 : Fin 8), (4 : Fin 8))
        ((5 : Fin 8), (4 : Fin 8)) = false ∧
    isMoveAllowed gC5w kingW ((4 : Fin 8), (4 : Fin 8))
        ((5 : Fin 8), (4 : Fin 8)) false =
      (adjacentB ((4 : Fin 8), (4 : Fin 8)) ((5 : Fin 8), (4 : Fin 8)) &&
       targetOk gC5w.board kingW ((5 : Fin 8), (4 : Fin 8)) &&
       !kingDistVeto gC5w kingW ((5 : Fin 8), (4 : Fin 8))) :=
  ⟨by decide,
   c5_king_nonCastling gC5w kingW ((4 : Fin 8), (4 : Fin 8))
     ((5 : Fin 8), (4 : Fin 8)) rfl (by decide)⟩

end PyChess

namespace PyChess

/-! ### C1: the self-check filter misses post-move side effects -/

/-- An en-passant pin: player 1's pawn on (4,4) may capture player 2's
just-double-stepped pawn on (4,3) en passant onto the target (5,3);
player 2's rook on (4,0) is blocked from player 1's king on (4,7) only
by that player-2 pawn. -/
def gC1 : Game :=
  { board := boardOfList
      [(((4 : Fin 8), (4 : Fin 8)), ⟨Kind.pawn, Player.one, false, false⟩),
       (((4 : Fin 8), (3 : Fin 8)), ⟨Kind.pawn, Player.two, false, false⟩),
       (((4 : Fin 8), (7 : Fin 8)), ⟨Kind.king, Player.one, true, false⟩),
       (((7 : Fin 8), (7 : Fin 8)), ⟨Kind.king, Player.two, true, false⟩),
       (((4 : Fin 8), (0 : Fin 8)), ⟨Kind.rook, Player.two, true, false⟩)]
    currentPlayer := Player.one
    epTarget := some ((5 : Fin 8), (3 : Fin 8))
    halfmoveClock := 0 }

/-- C1 fails on the code: `Piece.move` reports the en-passant capture
successful, yet after its post-move side effect (removal of the
bypassed pawn on (4,3)) the mover's own king on (4,7) is attacked by
the rook on (4,0).  The king-safety test ran before `post_move_action`
removed the pawn. -/
theorem c1_self_check_after_en_passant :
    (pieceMove gC1 ((4 : Fin 8), (4 : Fin 8)) ((5 : Fin 8), (3 : Fin 8))).1 =
      true ∧
    (pieceMove gC1 ((4 : Fin 8), (4 : Fin 8))
        ((5 : Fin 8), (3 : Fin 8))).2.board ((4 : Fin 8), (3 : Fin 8)) =
      none ∧
    isKingInCheck
      (pieceMove gC1 ((4 : Fin 8), (4 : Fin 8)) ((5 : Fin 8), (3 : Fin 8))).2
      Player.one = true := by
  decide

/-! ### C2: what a rejected request leaves behind -/

/-- C2 (amended).  A request whose coordinates resolve to in-range
squares and that is then rejected — empty origin, opponent's piece, or
a failing `Piece.move` (pseudo-illegality or self-check) — leaves the
board, the side to move, the halfmove clock and every piece flag
unchanged, but the en-passant target has been unconditionally cleared
before validation. -/
theorem c2_rejected_move_state (g : Game) (choice : PromoChoice)
    (fr fc tr tc : Int) (r1 c1 r2 c2 : Fin 8)
    (h1 : pyIndex fr = some r1) (h2 : pyIndex fc = some c1)
    (h3 : pyIndex tr = some r2) (h4 : pyIndex tc = some c2)
    (hrej : g.board (r1, c1) = none ∨
            (∃ pc : Piece, g.board (r1, c1) = some pc ∧
              pc.player ≠ g.currentPlayer) ∨
            (pieceMove { g with epTarget := none } (r1, c1) (r2, c2)).1 =
              false) :
    executeMove g choice fr fc tr tc = { g with epTarget := none } := by
  unfold executeMove
  rw [h1, h2, h3, h4]
  cases hb : g.board (r1, c1) with
  | none => simp only [hb]
  | some pc =>
    simp only [hb]
    by_cases hpl : pc.player = g.currentPlayer
    · have hbne : (pc.player != g.currentPlayer) = false := by
        simp [hpl]
      simp only [hbne, Bool.false_eq_true, if_false]
      rcases hrej with hr1 | ⟨pc', hpc', hne⟩ | hfail
      · rw [hb] at hr1; cases hr1
      · rw [hb] at hpc'
        exact absurd (by rw [← Option.some.inj hpc']; exact hpl) hne
      · rcases hpm : pieceMove { g with epTarget := none } (r1, c1) (r2, c2)
          with ⟨flag, g2⟩
        rw [hpm] at hfail
        simp only at hfail
        subst hfail
        simp only [hpm]
        have := @pieceMove_fail { g with epTarget := none }
          (r1, c1) (r2, c2) (by rw [hpm])
        rw [hpm] at this
        exact this
    · have hbne : (pc.player != g.currentPlayer) = true := by
        simp [hpl]
      simp only [hbne, if_true]

/-- State used for the C2 counterexample and witness: an en-passant
target is recorded, and the origin square (3,3) of the request is
empty. -/
def gC2 : Game :=
  { board := boardOfList
      [(((7 : Fin 8), (0 : Fin 8)), ⟨Kind.rook, Player.two, true, false⟩),
       (((0 : Fin 8), (4 : Fin 8)), ⟨Kind.king, Player.one, true, false⟩),
       (((7 : Fin 8), (4 : Fin 8)), ⟨Kind.king, Player.two, true, false⟩)]
    currentPlayer := Player.one
    epTarget := some ((2 : Fin 8), (4 : Fin 8))
    halfmoveClock := 5 }

/-- Counterexample to C2 as stated: the request from the empty square
(3,3) is rejected, yet the game state afterwards differs from the one
before — the en-passant target was cleared. -/
theorem c2_counterexample :
    gC2.board ((3 : Fin 8), (3 : Fin 8)) = none ∧
    executeMove gC2 PromoChoice.q 3 3 4 3 ≠ gC2 ∧
    (executeMove gC2 PromoChoice.q 3 3 4 3).epTarget = none := by
  decide

/-- Witness for the amended C2 at the same concrete rejected request. -/
theorem c2_rejected_move_state_witness :
    executeMove gC2 PromoChoice.q 3 3 4 3 = { gC2 with epTarget := none } :=
  c2_rejected_move_state gC2 PromoChoice.q 3 3 4 3 3 3 4 3
    (by decide) (by decide) (by decide) (by decide) (Or.inl (by decide))

end PyChess

namespace PyChess

/-! ### C3: out-of-bounds coordinates -/

/-- State for the C3 failing input: player 2 to move, a player-2 rook on
(7,0) with a clear file below it, and an en-passant target recorded. -/
def gC3 : Game :=
  { board := boardOfList
      [(((7 : Fin 8), (0 : Fin 8)), ⟨Kind.rook, Player.two, true, false⟩),
       (((0 : Fin 8), (4 : Fin 8)), ⟨Kind.king, Player.one, true, false⟩),
       (((7 : Fin 8), (4 : Fin 8)), ⟨Kind.king, Player.two, true, false⟩)]
    currentPlayer := Player.two
    epTarget := some ((2 : Fin 8), (4 : Fin 8))
    halfmoveClock := 0 }

/-- C3 fails on the code: the request whose from-square has row index
-1 (the user typed rank `0`, outside the board) is not rejected —
Python list indexing wraps `board[-1]` to row 7, the rook found there
is moved to (4,0), the en-passant target is cleared and the side to
move switches.  (An index outside `[-8, 8)` does raise before any
mutation, as the last conjunct shows for row index 8.) -/
theorem c3_wrapped_coordinates_mutate :
    ¬ (0 ≤ (-1 : Int)) ∧
    gC3.board ((4 : Fin 8), (0 : Fin 8)) = none ∧
    (executeMove gC3 PromoChoice.q (-1) 0 4 0).board ((4 : Fin 8), (0 : Fin 8))
      = some ⟨Kind.rook, Player.two, true, true⟩ ∧
    (executeMove gC3 PromoChoice.q (-1) 0 4 0).currentPlayer = Player.one ∧
    (executeMove gC3 PromoChoice.q (-1) 0 4 0).epTarget = none ∧
    gC3.epTarget = some ((2 : Fin 8), (4 : Fin 8)) ∧
    executeMove gC3 PromoChoice.q 8 0 4 0 = gC3 := by
  decide

/-! ### C7: the en-passant life cycle through `CommandMove.execute` -/

/-- Player 2's pawn on (6,3) is about to double-step to (4,3); player
1's pawn on (4,4) would then be entitled to capture it en passant. -/
def gC7base : Game :=
  { board := boardOfList
      [(((4 : Fin 8), (4 : Fin 8)), ⟨Kind.pawn, Player.one, false, false⟩),
       (((6 : Fin 8), (3 : Fin 8)), ⟨Kind.pawn, Player.two, true, false⟩),
       (((0 : Fin 8), (4 : Fin 8)), ⟨Kind.king, Player.one, true, false⟩),
       (((7 : Fin 8), (4 : Fin 8)), ⟨Kind.king, Player.two, true, false⟩)]
    currentPlayer := Player.two
    epTarget := none
    halfmoveClock := 0 }

/-- The state after player 2's double-step 6,3 → 4,3. -/
def gC7after : Game := executeMove gC7base PromoChoice.q 6 3 4 3

/-- C7 fails on the code: the double-step does record the skipped
square (5,3) as the en-passant target, but the *immediately following*
en-passant capture attempt 4,4 → 5,3 is rejected — `CommandMove.execute`
clears the target before validating, so `Pawn.is_move_allowed` never
sees it: both pawns stay in place, the capture square stays empty, the
side to move does not change, and the bypassed pawn is never removed. -/
theorem c7_en_passant_never_capturable :
    gC7after.epTarget = some ((5 : Fin 8), (3 : Fin 8)) ∧
    gC7after.board ((4 : Fin 8), (3 : Fin 8)) =
      some ⟨Kind.pawn, Player.two, false, false⟩ ∧
    gC7after.currentPlayer = Player.one ∧
    (executeMove gC7after PromoChoice.q 4 4 5 3).board ((4 : Fin 8), (4 : Fin 8))
      = some ⟨Kind.pawn, Player.one, false, false⟩ ∧
    (executeMove gC7after PromoChoice.q 4 4 5 3).board ((4 : Fin 8), (3 : Fin 8))
      = some ⟨Kind.pawn, Player.two, false, false⟩ ∧
    (executeMove gC7after PromoChoice.q 4 4 5 3).board ((5 : Fin 8), (3 : Fin 8))
      = none ∧
    (executeMove gC7after PromoChoice.q 4 4 5 3).currentPlayer = Player.one := by
  decide

/-! ### C10: pawn forward moves as attacks -/

/-- C10 (amended).  A pawn's forward step counts as an attack exactly on
*empty* squares: the empty square one step in front of a pawn is
reported attacked by its owner, but any occupied square one step in
front — in particular one holding the enemy king — is not reachable by
that pawn at all, since every applicable clause of
`Pawn.is_move_allowed` requires the straight-ahead destination to be
empty (the diagonal clauses do not match it). -/
theorem c10_pawn_forward_attack (g : Game) (s tgt : Sq) (pc : Piece)
    (hpc : g.board s = some pc) (hk : pc.kind = Kind.pawn)
    (ht : tileAt ((s.1 : Int) + pc.player.direction) (s.2 : Int) = some tgt) :
    ((g.board tgt).isNone = true → isSquareAttacked g tgt pc.player = true) ∧
    ((g.board tgt).isSome = true → isMoveAllowedSim g pc s tgt = false) := by
  have hdir : pc.player.direction = 1 ∨ pc.player.direction = -1 := by
    cases hpl : pc.player <;> simp [Player.direction]
  obtain ⟨er, ec⟩ := tileAt_eq_some.mp ht
  have hdiag : ∀ dd : Int, dd = pc.player.direction →
      ¬ (some tgt ∈ pawnDiagTiles s dd) := by
    rintro dd rfl hmem
    simp only [pawnDiagTiles, List.mem_cons, List.not_mem_nil, or_false,
      some_eq_tileAt_iff] at hmem
    rcases hmem with ⟨-, h2⟩ | ⟨-, h2⟩ <;> omega
  constructor
  · intro hempty
    unfold isSquareAttacked
    rw [List.any_eq_true]
    refine ⟨s, mem_allSquares s, ?_⟩
    rw [hpc]
    have hfwd : pawnAllowed g pc s tgt = true := by
      simp only [pawnAllowed]
      rw [ht]
      simp [hempty]
    obtain ⟨kk, pl, fm, hm⟩ := pc
    simp only [Piece.kind] at hk
    subst hk
    simp only [isMoveAllowedSim, hfwd, beq_self_eq_true, Bool.and_self]
  · intro hocc
    have hne : (g.board tgt).isNone = false := by
      cases hb : g.board tgt with
      | none => rw [hb] at hocc; cases hocc
      | some p => rfl
    have hd2 : tileAt ((s.1 : Int) + 2 * pc.player.direction) (s.2 : Int)
        ≠ some tgt := by
      intro hx
      obtain ⟨fr, fc⟩ := tileAt_eq_some.mp hx
      rcases hdir with hh | hh <;> rw [hh] at er fr <;> omega
    have hfwd : pawnAllowed g pc s tgt = false := by
      simp only [pawnAllowed, hne, Bool.false_and, Bool.and_false,
        Bool.false_or]
      have hm1 : decide (some tgt ∈ pawnDiagTiles s pc.player.direction)
          = false := by
        rw [decide_eq_false_iff_not]
        exact hdiag _ rfl
      simp [hm1]
    obtain ⟨kk, pl, fm, hm⟩ := pc
    simp only [Piece.kind] at hk
    subst hk
    exact hfwd

/-- Board for the C10 counterexample: player 1's king stands directly in
front of player 2's pawn. -/
def gC10 : Game :=
  { board := boardOfList
      [(((4 : Fin 8), (4 : Fin 8)), ⟨Kind.king, Player.one, true, false⟩),
       (((5 : Fin 8), (4 : Fin 8)), ⟨Kind.pawn, Player.two, false, false⟩),
       (((0 : Fin 8), (0 : Fin 8)), ⟨Kind.king, Player.two, true, false⟩)]
    currentPlayer := Player.one
    epTarget := none
    halfmoveClock := 0 }

/-- Counterexample to C10's final consequence: player 1's king on (4,4)
stands exactly one step in front of player 2's pawn on (5,4) (direction
-1), yet `is_king_in_check` reports no check — the pawn's forward clause
requires an empty destination. -/
theorem c10_counterexample :
    gC10.board ((5 : Fin 8), (4 : Fin 8)) =
      some ⟨Kind.pawn, Player.two, false, false⟩ ∧
    tileAt ((5 : Int) + Player.two.direction) (4 : Int) =
      some ((4 : Fin 8), (4 : Fin 8)) ∧
    gC10.board ((4 : Fin 8), (4 : Fin 8)) =
      some ⟨Kind.king, Player.one, true, false⟩ ∧
    isKingInCheck gC10 Player.one = false := by
  decide

/-- The same square with the king removed, for the C10 witness. -/
def gC10e : Game :=
  { gC10 with board := gC10.board.set ((4 : Fin 8), (4 : Fin 8)) none }

/-- Witness for the amended C10: with (4,4) empty, the square in front
of the pawn is reported attacked by player 2. -/
theorem c10_pawn_forward_attack_witness :
    isSquareAttacked gC10e ((4 : Fin 8), (4 : Fin 8)) Player.two = true :=
  (c10_pawn_forward_attack gC10e ((5 : Fin 8), (4 : Fin 8))
      ((4 : Fin 8), (4 : Fin 8)) ⟨Kind.pawn, Player.two, false, false⟩
      (by decide) rfl (by decide)).1 (by decide)

end PyChess

namespace PyChess

/-! ### C8: the starting position -/

/-- C8.  The fresh game's board: eight player-1 pawns on row 1 and eight
player-2 pawns on row 6; on the two back ranks (row 0 owned by player 1,
row 7 by player 2) rooks on the corner files, knights next, then
bishops; the two kings share the central file 3 and the two queens share
the central file 4, and the two queens stand on squares of opposite
colors; all remaining squares are empty. -/
theorem c8_initial_position :
    (∀ c : Fin 8, initialBoard (1, c) = some (mkPiece Kind.pawn Player.one) ∧
                  initialBoard (6, c) = some (mkPiece Kind.pawn Player.two)) ∧
    (∀ c : Fin 8,
      initialBoard (2, c) = none ∧ initialBoard (3, c) = none ∧
      initialBoard (4, c) = none ∧ initialBoard (5, c) = none) ∧
    (∀ c : Fin 8, ∃ p : Piece, initialBoard (0, c) = some p ∧
        p.player = Player.one) ∧
    (∀ c : Fin 8, ∃ p : Piece, initialBoard (7, c) = some p ∧
        p.player = Player.two) ∧
    (∀ r : Fin 8, ((initialBoard (r, 0)).map Piece.kind = some Kind.rook ∧
        (initialBoard (r, 7)).map Piece.kind = some Kind.rook ∧
        (initialBoard (r, 1)).map Piece.kind = some Kind.knight ∧
        (initialBoard (r, 6)).map Piece.kind = some Kind.knight ∧
        (initialBoard (r, 2)).map Piece.kind = some Kind.bishop ∧
        (initialBoard (r, 5)).map Piece.kind = some Kind.bishop ∨
        ¬ (r = 0 ∨ r = 7))) ∧
    (initialBoard (0, 3)).map Piece.kind = some Kind.king ∧
    (initialBoard (7, 3)).map Piece.kind = some Kind.king ∧
    (initialBoard (0, 4)).map Piece.kind = some Kind.queen ∧
    (initialBoard (7, 4)).map Piece.kind = some Kind.queen ∧
    tileIsBlack (0, 4) ≠ tileIsBlack (7, 4) := by
  decide

/-! ### C9: the insufficient-material draw -/

/-- The code's two minor-piece tallies, added: the number of knights
plus the number of bishops on the board, both sides combined. -/
def minorPieceTotal (g : Game) : Nat :=
  (allSquares.filter (fun s =>
      match g.board s with
      | some p => p.kind == Kind.knight
      | none => false)).length +
  (allSquares.filter (fun s =>
      match g.board s with
      | some p => p.kind == Kind.bishop
      | none => false)).length

theorem hasSufficientMaterial_false_iff (g : Game) :
    hasSufficientMaterial g = false ↔
      ((∀ s : Sq, ∀ p : Piece, g.board s = some p →
          p.kind ≠ Kind.pawn ∧ p.kind ≠ Kind.rook ∧ p.kind ≠ Kind.queen) ∧
       minorPieceTotal g < 2) := by
  unfold hasSufficientMaterial minorPieceTotal
  rw [Bool.or_eq_false_iff]
  constructor
  · rintro ⟨h1, h2⟩
    constructor
    · intro s p hp
      have hs := List.any_eq_false.mp h1 s (mem_allSquares s)
      rw [hp] at hs
      simp only [Bool.or_eq_true, beq_iff_eq, not_or] at hs
      exact ⟨hs.1.1, hs.1.2, hs.2⟩
    · simp only [decide_eq_false_iff_not, not_lt] at h2
      omega
  · rintro ⟨h1, h2⟩
    constructor
    · rw [List.any_eq_false]
      intro s _
      cases hp : g.board s with
      | none => simp
      | some p =>
        obtain ⟨k1, k2, k3⟩ := h1 s p hp
        simp [k1, k2, k3]
    · simp only [decide_eq_false_iff_not, not_lt]
      omega

/-- King + bishop versus lone king. -/
def gKBK : Game :=
  { board := boardOfList
      [(((0 : Fin 8), (0 : Fin 8)), ⟨Kind.king, Player.one, true, false⟩),
       (((7 : Fin 8), (7 : Fin 8)), ⟨Kind.king, Player.two, true, false⟩),
       (((3 : Fin 8), (3 : Fin 8)), ⟨Kind.bishop, Player.one, true, false⟩)]
    currentPlayer := Player.two
    epTarget := none
    halfmoveClock := 10 }

/-- King + two knights versus lone king. -/
def gKNNK : Game :=
  { board := boardOfList
      [(((0 : Fin 8), (0 : Fin 8)), ⟨Kind.king, Player.one, true, false⟩),
       (((7 : Fin 8), (7 : Fin 8)), ⟨Kind.king, Player.two, true, false⟩),
       (((3 : Fin 8), (3 : Fin 8)), ⟨Kind.knight, Player.one, true, false⟩),
       (((3 : Fin 8), (4 : Fin 8)), ⟨Kind.knight, Player.one, true, false⟩)]
    currentPlayer := Player.two
    epTarget := none
    halfmoveClock := 10 }

/-- C9.  When neither the repetition nor the fifty-move check fires, the
start-of-turn classification is the insufficient-material draw exactly
when no pawn, rook or queen is on the board and fewer than two minor
pieces (knights plus bishops, both sides combined) remain; in
particular king+bishop versus king is such a draw and king+knight+knight
versus king is not. -/
theorem c9_insufficient_material :
    (∀ (g : Game) (prior : Nat), prior + 1 < 3 → g.halfmoveClock < 100 →
      (turnOutcome g prior = Outcome.insufficientMaterialDraw ↔
        ((∀ s : Sq, ∀ p : Piece, g.board s = some p →
            p.kind ≠ Kind.pawn ∧ p.kind ≠ Kind.rook ∧ p.kind ≠ Kind.queen) ∧
         minorPieceTotal g < 2))) ∧
    turnOutcome gKBK 0 = Outcome.insufficientMaterialDraw ∧
    turnOutcome gKNNK 0 ≠ Outcome.insufficientMaterialDraw := by
  refine ⟨?_, ?_, ?_⟩
  · intro g prior hrep hclk
    unfold turnOutcome
    rw [if_neg (by omega), if_neg (by omega)]
    cases hm : hasSufficientMaterial g with
    | false =>
      rw [if_pos (show (!false) = true from rfl)]
      constructor
      · intro _
        exact (hasSufficientMaterial_false_iff g).mp hm
      · intro _
        rfl
    | true =>
      rw [if_neg (show ¬(!true) = true from by simp)]
      apply iff_of_false
      · cases hlm : hasLegalMoves g g.currentPlayer with
        | true => simp [hlm]
        | false =>
          simp only [hlm, Bool.not_false, if_true]
          cases hck : isKingInCheck g g.currentPlayer <;> simp [hck]
      · rintro ⟨h1, h2⟩
        have := (hasSufficientMaterial_false_iff g).mpr ⟨h1, h2⟩
        rw [hm] at this
        cases this
  · decide
  · unfold turnOutcome
    rw [if_neg (by omega), if_neg (by decide), if_neg (by decide)]
    cases hlm : hasLegalMoves gKNNK gKNNK.currentPlayer with
    | true => simp [hlm]
    | false =>
      simp only [hlm, Bool.not_false, if_true]
      cases hck : isKingInCheck gKNNK gKNNK.currentPlayer <;> simp [hck]

/-- Witness for C9 at the king+bishop versus king position. -/
theorem c9_insufficient_material_witness :
    turnOutcome gKBK 0 = Outcome.insufficientMaterialDraw :=
  (c9_insufficient_material.1 gKBK 0 (by omega) (by decide)).mpr
    ⟨by decide, by decide⟩

end PyChess

namespace PyChess

/-! ### C6: castling -/

theorem sq_eq_of_int (u v : Sq) (h1 : (u.1 : Int) = (v.1 : Int))
    (h2 : (u.2 : Int) = (v.2 : Int)) : u = v := by
  obtain ⟨a, b⟩ := u
  obtain ⟨c, d⟩ := v
  simp only at h1 h2
  have : (a : Nat) = c := by omega
  have : (b : Nat) = d := by omega
  simp_all [Fin.ext_iff, Prod.ext_iff]

/-- Everything a successful castling eligibility test guarantees: an
unmoved king moving two columns along its row while not in check, an
unmoved rook on the expected tile (three columns right or four columns
left of the king), every square strictly between king and rook empty,
and neither the passed-over square (the column midpoint of the move)
nor the destination attacked by the opponent. -/
theorem castlingOk_elim {g : Game} {self : Piece} {f tgt : Sq}
    (hc : castlingOk g self f tgt = true) :
    self.hasMoved = false ∧ f.1 = tgt.1 ∧
    ((f.2 : Int) - (tgt.2 : Int)).natAbs = 2 ∧
    isKingInCheck g self.player = false ∧
    ∃ rsq : Sq,
      (rsq.1 : Int) = (f.1 : Int) ∧
      (rsq.2 : Int) = (if (f.2 : Nat) < (tgt.2 : Nat) then (f.2 : Int) + 3
                       else (f.2 : Int) - 4) ∧
      (∃ rp : Piece, g.board rsq = some rp ∧ rp.kind = Kind.rook ∧
        rp.hasMoved = false) ∧
      (∀ u : Sq, (u.1 : Int) = (f.1 : Int) →
        min ((f.2 : Int)) ((rsq.2 : Int)) < (u.2 : Int) →
        (u.2 : Int) < max ((f.2 : Int)) ((rsq.2 : Int)) →
        g.board u = none) ∧
      (∀ ps : Sq, (ps.1 : Int) = (f.1 : Int) →
        2 * (ps.2 : Int) = (f.2 : Int) + (tgt.2 : Int) →
        isSquareAttacked g ps self.player.opponent = false) ∧
      isSquareAttacked g tgt self.player.opponent = false := by
  unfold castlingOk at hc
  simp only [Bool.and_eq_true, Bool.not_eq_true', beq_iff_eq] at hc
  obtain ⟨⟨⟨⟨hmv, hrow⟩, hd2⟩, hchk⟩, he⟩ := hc
  refine ⟨hmv, hrow, hd2, hchk, ?_⟩
  by_cases hks : (f.2 : Nat) < (tgt.2 : Nat)
  · simp only [if_pos hks] at he ⊢
    have htcol : (tgt.2 : Int) = (f.2 : Int) + 2 := by omega
    obtain ⟨⟨⟨hpath, hrook⟩, hpass⟩, htgt⟩ := he
    cases hrt : tileAt (f.1 : Int) ((f.2 : Int) + 3) with
    | none => rw [hrt] at hrook; cases hrook
    | some rsq =>
      obtain ⟨ersq1, ersq2⟩ := tileAt_eq_some.mp hrt
      have hrook2 : (match g.board rsq with
          | some rp => rp.kind == Kind.rook && !rp.hasMoved
          | none => false) = true := by
        rw [hrt] at hrook; exact hrook
      cases hbp : g.board rsq with
      | none => rw [hbp] at hrook2; cases hrook2
      | some rp =>
        rw [hbp] at hrook2
        simp only [Bool.and_eq_true, beq_iff_eq, Bool.not_eq_true'] at hrook2
        obtain ⟨hrpk, hrpm⟩ := hrook2
        obtain ⟨hp1, hp2⟩ := by simpa only [Bool.and_eq_true] using hpath
        have hb1 : 0 ≤ (f.1 : Int) ∧ (f.1 : Int) < 8 ∧
            0 ≤ (f.2 : Int) + 1 ∧ (f.2 : Int) + 1 < 8 := by omega
        have hb2 : 0 ≤ (f.1 : Int) ∧ (f.1 : Int) < 8 ∧
            0 ≤ (f.2 : Int) + 2 ∧ (f.2 : Int) + 2 < 8 := by omega
        obtain ⟨u1, hu1, eu11, eu12⟩ := tileAt_of_bounds hb1
        obtain ⟨u2, hu2, eu21, eu22⟩ := tileAt_of_bounds hb2
        have hempty1 : g.board u1 = none := by
          unfold emptyAtOff at hp1
          try simp only [← sub_eq_add_neg] at hp1
          have h1x : (g.board u1).isNone = true := by
            rw [hu1] at hp1; exact hp1
          exact Option.isNone_iff_eq_none.mp h1x
        have hempty2 : g.board u2 = none := by
          unfold emptyAtOff at hp2
          try simp only [← sub_eq_add_neg] at hp2
          have h2x : (g.board u2).isNone = true := by
            rw [hu2] at hp2; exact hp2
          exact Option.isNone_iff_eq_none.mp h2x
        have hpassAtt : isSquareAttacked g u1 self.player.opponent = false := by
          have hpx : (!isSquareAttacked g u1 self.player.opponent) = true := by
            rw [hu1] at hpass; exact hpass
          cases hval : isSquareAttacked g u1 self.player.opponent with
          | false => rfl
          | true => rw [hval] at hpx; cases hpx
        have htgtAtt : isSquareAttacked g tgt self.player.opponent = false :=
          htgt
        refine ⟨rsq, ersq1, ersq2, ⟨rp, hbp, hrpk, hrpm⟩, ?_, ?_, htgtAtt⟩
        · intro u hu hlo hhi
          rw [ersq2] at hlo hhi
          have : (u.2 : Int) = (f.2 : Int) + 1 ∨
              (u.2 : Int) = (f.2 : Int) + 2 := by omega
          rcases this with hcase | hcase
          · rw [sq_eq_of_int u u1 (by omega) (by omega)]
            exact hempty1
          · rw [sq_eq_of_int u u2 (by omega) (by omega)]
            exact hempty2
        · intro ps hps1 hps2
          rw [sq_eq_of_int ps u1 (by omega) (by omega)]
          exact hpassAtt
  · simp only [if_neg hks] at he ⊢
    have htcol : (tgt.2 : Int) = (f.2 : Int) - 2 := by omega
    obtain ⟨⟨⟨hpath, hrook⟩, hpass⟩, htgt⟩ := he
    cases hrt : tileAt (f.1 : Int) ((f.2 : Int) - 4) with
    | none => rw [hrt] at hrook; cases hrook
    | some rsq =>
      obtain ⟨ersq1, ersq2⟩ := tileAt_eq_some.mp hrt
      have hrook2 : (match g.board rsq with
          | some rp => rp.kind == Kind.rook && !rp.hasMoved
          | none => false) = true := by
        rw [hrt] at hrook; exact hrook
      cases hbp : g.board rsq with
      | none => rw [hbp] at hrook2; cases hrook2
      | some rp =>
        rw [hbp] at hrook2
        simp only [Bool.and_eq_true, beq_iff_eq, Bool.not_eq_true'] at hrook2
        obtain ⟨hrpk, hrpm⟩ := hrook2
        obtain ⟨⟨hp1, hp2⟩, hp3⟩ := by
          simpa only [Bool.and_eq_true] using hpath
        have hf4 : 0 ≤ (f.2 : Int) - 4 := by omega
        have hb1 : 0 ≤ (f.1 : Int) ∧ (f.1 : Int) < 8 ∧
            0 ≤ (f.2 : Int) - 1 ∧ (f.2 : Int) - 1 < 8 := by omega
        have hb2 : 0 ≤ (f.1 : Int) ∧ (f.1 : Int) < 8 ∧
            0 ≤ (f.2 : Int) - 2 ∧ (f.2 : Int) - 2 < 8 := by omega
        have hb3 : 0 ≤ (f.1 : Int) ∧ (f.1 : Int) < 8 ∧
            0 ≤ (f.2 : Int) - 3 ∧ (f.2 : Int) - 3 < 8 := by omega
        obtain ⟨u1, hu1, eu11, eu12⟩ := tileAt_of_bounds hb1
        obtain ⟨u2, hu2, eu21, eu22⟩ := tileAt_of_bounds hb2
        obtain ⟨u3, hu3, eu31, eu32⟩ := tileAt_of_bounds hb3
        have hempty1 : g.board u1 = none := by
          unfold emptyAtOff at hp1
          try simp only [← sub_eq_add_neg] at hp1
          have h1x : (g.board u1).isNone = true := by
            rw [hu1] at hp1; exact hp1
          exact Option.isNone_iff_eq_none.mp h1x
        have hempty2 : g.board u2 = none := by
          unfold emptyAtOff at hp2
          try simp only [← sub_eq_add_neg] at hp2
          have h2x : (g.board u2).isNone = true := by
            rw [hu2] at hp2; exact hp2
          exact Option.isNone_iff_eq_none.mp h2x
        have hempty3 : g.board u3 = none := by
          unfold emptyAtOff at hp3
          try simp only [← sub_eq_add_neg] at hp3
          have h3x : (g.board u3).isNone = true := by
            rw [hu3] at hp3; exact hp3
          exact Option.isNone_iff_eq_none.mp h3x
        have hpassAtt : isSquareAttacked g u1 self.player.opponent = false := by
          have hpx : (!isSquareAttacked g u1 self.player.opponent) = true := by
            rw [hu1] at hpass; exact hpass
          cases hval : isSquareAttacked g u1 self.player.opponent with
          | false => rfl
          | true => rw [hval] at hpx; cases hpx
        have htgtAtt : isSquareAttacked g tgt self.player.opponent = false :=
          htgt
        refine ⟨rsq, ersq1, ersq2, ⟨rp, hbp, hrpk, hrpm⟩, ?_, ?_, htgtAtt⟩
        · intro u hu hlo hhi
          rw [ersq2] at hlo hhi
          have : (u.2 : Int) = (f.2 : Int) - 1 ∨
              (u.2 : Int) = (f.2 : Int) - 2 ∨
              (u.2 : Int) = (f.2 : Int) - 3 := by omega
          rcases this with hcase | hcase | hcase
          · rw [sq_eq_of_int u u1 (by omega) (by omega)]
            exact hempty1
          · rw [sq_eq_of_int u u2 (by omega) (by omega)]
            exact hempty2
          · rw [sq_eq_of_int u u3 (by omega) (by omega)]
            exact hempty3
        · intro ps hps1 hps2
          rw [sq_eq_of_int ps u1 (by omega) (by omega)]
          exact hpassAtt

end PyChess

namespace PyChess

/-- A king move of two columns can only be accepted through the
castling block: the basic-move test never reaches two columns away. -/
theorem accept_dist2_castling {g : Game} {self : Piece} {f tgt : Sq}
    (hk : self.kind = Kind.king)
    (hdist : ((f.2 : Int) - (tgt.2 : Int)).natAbs = 2)
    (hacc : isMoveAllowed g self f tgt false = true) :
    castlingOk g self f tgt = true := by
  obtain ⟨kk, pl, fm, hm⟩ := self
  simp only [Piece.kind] at hk
  subst hk
  simp only [isMoveAllowed] at hacc
  obtain ⟨hor, -⟩ := by simpa only [Bool.and_eq_true] using hacc
  rcases (by simpa only [Bool.or_eq_true] using hor :
      kingBasic g.board ⟨Kind.king, pl, fm, hm⟩ f tgt = true ∨
      (!false && castlingOk g ⟨Kind.king, pl, fm, hm⟩ f tgt) = true) with
    hb | hcst
  · exfalso
    obtain ⟨hmem, -⟩ := by
      simpa only [kingBasic, Bool.and_eq_true, decide_eq_true_eq] using hb
    have hadj := (mem_kingNeighborTiles_iff f tgt).mp hmem
    obtain ⟨⟨-, hcol⟩, -⟩ := by
      simpa only [adjacentB, Bool.and_eq_true, decide_eq_true_eq] using hadj
    omega
  · simpa only [Bool.not_false, Bool.true_and] using hcst

/-- C6.  A two-column king move is accepted only when the king has never
moved, it stays on its row, it is not currently in check, an unmoved
rook sits on the expected tile (three columns towards the destination,
or four columns the other way), every square strictly between king and
rook is empty, and neither the passed-over square (the column midpoint)
nor the destination is attacked by the opponent.  When such a move
executes through `Piece.move`, the rook is relocated from that tile to
the square adjacent to the king's new position on the king's origin
side, and both the king and the rook end up marked as having moved. -/
theorem c6_castling (g : Game) (self : Piece) (f tgt : Sq)
    (hk : self.kind = Kind.king)
    (hself : g.board f = some self)
    (hdist : ((f.2 : Int) - (tgt.2 : Int)).natAbs = 2) :
    (isMoveAllowed g self f tgt false = true →
      self.hasMoved = false ∧ f.1 = tgt.1 ∧
      isKingInCheck g self.player = false ∧
      (∃ rsq : Sq, ∃ rp : Piece,
        (rsq.1 : Int) = (f.1 : Int) ∧
        (rsq.2 : Int) = (if (f.2 : Nat) < (tgt.2 : Nat) then (f.2 : Int) + 3
                         else (f.2 : Int) - 4) ∧
        g.board rsq = some rp ∧ rp.kind = Kind.rook ∧ rp.hasMoved = false ∧
        (∀ u : Sq, (u.1 : Int) = (f.1 : Int) →
          min ((f.2 : Int)) ((rsq.2 : Int)) < (u.2 : Int) →
          (u.2 : Int) < max ((f.2 : Int)) ((rsq.2 : Int)) →
          g.board u = none)) ∧
      (∀ ps : Sq, (ps.1 : Int) = (f.1 : Int) →
        2 * (ps.2 : Int) = (f.2 : Int) + (tgt.2 : Int) →
        isSquareAttacked g ps self.player.opponent = false) ∧
      isSquareAttacked g tgt self.player.opponent = false) ∧
    ((pieceMove g f tgt).1 = true →
      ∃ rf rt : Sq, ∃ rp : Piece,
        (rf.1 : Int) = (tgt.1 : Int) ∧ (rt.1 : Int) = (tgt.1 : Int) ∧
        (rf.2 : Int) = (if (f.2 : Nat) < (tgt.2 : Nat) then (tgt.2 : Int) + 1
                        else (tgt.2 : Int) - 2) ∧
        (rt.2 : Int) = (if (f.2 : Nat) < (tgt.2 : Nat) then (tgt.2 : Int) - 1
                        else (tgt.2 : Int) + 1) ∧
        g.board rf = some rp ∧ rp.kind = Kind.rook ∧
        (pieceMove g f tgt).2.board rt = some { rp with hasMoved := true } ∧
        (pieceMove g f tgt).2.board rf = none ∧
        (pieceMove g f tgt).2.board tgt =
          some { self with hasMoved := true }) := by
  constructor
  · intro hacc
    have hcast := accept_dist2_castling hk hdist hacc
    obtain ⟨hmv, hrow, -, hchk, rsq, e1, e2, ⟨rp, hbp, hrpk, hrpm⟩, hbet,
      hpassA, htgtA⟩ := castlingOk_elim hcast
    exact ⟨hmv, hrow, hchk, ⟨rsq, rp, e1, e2, hbp, hrpk, hrpm, hbet⟩,
      hpassA, htgtA⟩
  · intro hsucc
    obtain ⟨kk, pl, fm, hm⟩ := self
    simp only [Piece.kind] at hk
    subst hk
    have hkey : pieceMove g f tgt =
        (if isMoveAllowed g ⟨Kind.king, pl, fm, hm⟩ f tgt false = true then
          (if isKingInCheck
              { g with board :=
                  (g.board.set tgt (some ⟨Kind.king, pl, fm, hm⟩)).set f none }
              (⟨Kind.king, pl, fm, hm⟩ : Piece).player = true then
            (false,
             { g with board :=
                ((((g.board.set tgt (some ⟨Kind.king, pl, fm, hm⟩)).set f
                    none).set f (some ⟨Kind.king, pl, fm, hm⟩)).set tgt
                  (g.board tgt)) })
          else
            (true,
             postMoveAction
               { g with board :=
                   (g.board.set tgt (some ⟨Kind.king, pl, fm, hm⟩)).set f none }
               ⟨Kind.king, pl, fm, hm⟩ f tgt))
        else (false, g)) := by
      unfold pieceMove
      rw [hself]
    have hall : isMoveAllowed g ⟨Kind.king, pl, fm, hm⟩ f tgt false = true := by
      by_cases h : isMoveAllowed g ⟨Kind.king, pl, fm, hm⟩ f tgt false = true
      · exact h
      · rw [hkey, if_neg h] at hsucc
        cases hsucc
    have hchk2 : isKingInCheck
        { g with board :=
            (g.board.set tgt (some ⟨Kind.king, pl, fm, hm⟩)).set f none }
        (⟨Kind.king, pl, fm, hm⟩ : Piece).player = false := by
      cases hv : isKingInCheck
          { g with board :=
              (g.board.set tgt (some ⟨Kind.king, pl, fm, hm⟩)).set f none }
          (⟨Kind.king, pl, fm, hm⟩ : Piece).player with
      | false => rfl
      | true =>
        rw [hkey, if_pos hall, if_pos hv] at hsucc
        cases hsucc
    have hp2 : (pieceMove g f tgt).2 =
        postMoveAction
          { g with board :=
              (g.board.set tgt (some ⟨Kind.king, pl, fm, hm⟩)).set f none }
          ⟨Kind.king, pl, fm, hm⟩ f tgt := by
      rw [hkey, if_pos hall, if_neg (by rw [hchk2]; exact Bool.false_ne_true)]
    have hcast := accept_dist2_castling rfl hdist hall
    obtain ⟨hmv, hrow, -, hchk, rsq, e1, e2, ⟨rp, hbp, hrpk, hrpm⟩, hbet,
      hpassA, htgtA⟩ := castlingOk_elim hcast
    have hrowI : (f.1 : Int) = (tgt.1 : Int) := by rw [hrow]
    by_cases hks : (f.2 : Nat) < (tgt.2 : Nat)
    · rw [if_pos hks] at e2
      have htcol : (tgt.2 : Int) = (f.2 : Int) + 2 := by omega
      have hrfEq : tileAt (tgt.1 : Int) ((tgt.2 : Int) + 1) = some rsq :=
        tileAt_eq_some.mpr ⟨by omega, by omega⟩
      obtain ⟨rt, hrtEq, ert1, ert2⟩ := tileAt_of_bounds
        (show 0 ≤ (tgt.1 : Int) ∧ (tgt.1 : Int) < 8 ∧
            0 ≤ (tgt.2 : Int) - 1 ∧ (tgt.2 : Int) - 1 < 8 by omega)
      have hne_rsq_tgt : rsq ≠ tgt := by
        intro he; rw [he] at e2; omega
      have hne_rsq_f : rsq ≠ f := by
        intro he; rw [he] at e2; omega
      have hne_rt_rsq : rt ≠ rsq := by
        intro he; rw [he] at ert2; omega
      have hne_tgt_rsq : tgt ≠ rsq := fun he => hne_rsq_tgt he.symm
      have hne_tgt_rt : tgt ≠ rt := by
        intro he
        rw [← he] at ert2
        omega
      have hpost : postMoveAction
          { g with board :=
              (g.board.set tgt (some ⟨Kind.king, pl, fm, hm⟩)).set f none }
          ⟨Kind.king, pl, fm, hm⟩ f tgt =
          { g with board :=
              ((((g.board.set tgt (some ⟨Kind.king, pl, fm, hm⟩)).set f
                  none).set tgt (some ⟨Kind.king, pl, fm, true⟩)).set rt
                (some { rp with hasMoved := true })).set rsq none } := by
        simp only [postMoveAction]
        rw [if_pos hdist]
        simp only [if_pos hks]
        rw [hrfEq, hrtEq]
        have hval : ((((g.board.set tgt (some ⟨Kind.king, pl, fm, hm⟩)).set f
            none).set tgt (some ⟨Kind.king, pl, fm, true⟩)) rsq) = some rp := by
          rw [Board.set_other _ _ _ _ hne_rsq_tgt,
            Board.set_other _ _ _ _ hne_rsq_f,
            Board.set_other _ _ _ _ hne_rsq_tgt]
          exact hbp
        show (match (((g.board.set tgt (some ⟨Kind.king, pl, fm, hm⟩)).set f
              none).set tgt (some ⟨Kind.king, pl, fm, true⟩)) rsq with
          | some q =>
            { g with board :=
                ((((g.board.set tgt (some ⟨Kind.king, pl, fm, hm⟩)).set f
                    none).set tgt (some ⟨Kind.king, pl, fm, true⟩)).set rt
                  (some { q with hasMoved := true })).set rsq none }
          | none =>
            { g with board :=
                ((g.board.set tgt (some ⟨Kind.king, pl, fm, hm⟩)).set f
                  none).set tgt (some ⟨Kind.king, pl, fm, true⟩) }) =
          { g with board :=
              ((((g.board.set tgt (some ⟨Kind.king, pl, fm, hm⟩)).set f
                  none).set tgt (some ⟨Kind.king, pl, fm, true⟩)).set rt
                (some { rp with hasMoved := true })).set rsq none }
        rw [hval]
      refine ⟨rsq, rt, rp, by omega, by omega, by rw [if_pos hks]; omega,
        by rw [if_pos hks]; omega, hbp, hrpk, ?_, ?_, ?_⟩
      · rw [hp2, hpost]
        show ((((((g.board.set tgt (some ⟨Kind.king, pl, fm, hm⟩)).set f
            none).set tgt (some ⟨Kind.king, pl, fm, true⟩)).set rt
            (some { rp with hasMoved := true })).set rsq none)) rt =
          some { rp with hasMoved := true }
        rw [Board.set_other _ _ _ _ hne_rt_rsq, Board.set_self]
      · rw [hp2, hpost]
        show ((((((g.board.set tgt (some ⟨Kind.king, pl, fm, hm⟩)).set f
            none).set tgt (some ⟨Kind.king, pl, fm, true⟩)).set rt
            (some { rp with hasMoved := true })).set rsq none)) rsq = none
        rw [Board.set_self]
      · rw [hp2, hpost]
        show ((((((g.board.set tgt (some ⟨Kind.king, pl, fm, hm⟩)).set f
            none).set tgt (some ⟨Kind.king, pl, fm, true⟩)).set rt
            (some { rp with hasMoved := true })).set rsq none)) tgt =
          some ⟨Kind.king, pl, fm, true⟩
        rw [Board.set_other _ _ _ _ hne_tgt_rsq,
          Board.set_other _ _ _ _ hne_tgt_rt, Board.set_self]
    · rw [if_neg hks] at e2
      have htcol : (tgt.2 : Int) = (f.2 : Int) - 2 := by omega
      have hrfEq : tileAt (tgt.1 : Int) ((tgt.2 : Int) - 2) = some rsq :=
        tileAt_eq_some.mpr ⟨by omega, by omega⟩
      obtain ⟨rt, hrtEq, ert1, ert2⟩ := tileAt_of_bounds
        (show 0 ≤ (tgt.1 : Int) ∧ (tgt.1 : Int) < 8 ∧
            0 ≤ (tgt.2 : Int) + 1 ∧ (tgt.2 : Int) + 1 < 8 by omega)
      have hne_rsq_tgt : rsq ≠ tgt := by
        intro he; rw [he] at e2; omega
      have hne_rsq_f : rsq ≠ f := by
        intro he; rw [he] at e2; omega
      have hne_rt_rsq : rt ≠ rsq := by
        intro he; rw [he] at ert2; omega
      have hne_tgt_rsq : tgt ≠ rsq := fun he => hne_rsq_tgt he.symm
      have hne_tgt_rt : tgt ≠ rt := by
        intro he
        rw [← he] at ert2
        omega
      have hpost : postMoveAction
          { g with board :=
              (g.board.set tgt (some ⟨Kind.king, pl, fm, hm⟩)).set f none }
          ⟨Kind.king, pl, fm, hm⟩ f tgt =
          { g with board :=
              ((((g.board.set tgt (some ⟨Kind.king, pl, fm, hm⟩)).set f
                  none).set tgt (some ⟨Kind.king, pl, fm, true⟩)).set rt
                (some { rp with hasMoved := true })).set rsq none } := by
        simp only [postMoveAction]
        rw [if_pos hdist]
        simp only [if_neg hks]
        rw [hrfEq, hrtEq]
        have hval : ((((g.board.set tgt (some ⟨Kind.king, pl, fm, hm⟩)).set f
            none).set tgt (some ⟨Kind.king, pl, fm, true⟩)) rsq) = some rp := by
          rw [Board.set_other _ _ _ _ hne_rsq_tgt,
            Board.set_other _ _ _ _ hne_rsq_f,
            Board.set_other _ _ _ _ hne_rsq_tgt]
          exact hbp
        show (match (((g.board.set tgt (some ⟨Kind.king, pl, fm, hm⟩)).set f
              none).set tgt (some ⟨Kind.king, pl, fm, true⟩)) rsq with
          | some q =>
            { g with board :=
                ((((g.board.set tgt (some ⟨Kind.king, pl, fm, hm⟩)).set f
                    none).set tgt (some ⟨Kind.king, pl, fm, true⟩)).set rt
                  (some { q with hasMoved := true })).set rsq none }
          | none =>
            { g with board :=
                ((g.board.set tgt (some ⟨Kind.king, pl, fm, hm⟩)).set f
                  none).set tgt (some ⟨Kind.king, pl, fm, true⟩) }) =
          { g with board :=
              ((((g.board.set tgt (some ⟨Kind.king, pl, fm, hm⟩)).set f
                  none).set tgt (some ⟨Kind.king, pl, fm, true⟩)).set rt
                (some { rp with hasMoved := true })).set rsq none }
        rw [hval]
      refine ⟨rsq, rt, rp, by omega, by omega, by rw [if_neg hks]; omega,
        by rw [if_neg hks]; omega, hbp, hrpk, ?_, ?_, ?_⟩
      · rw [hp2, hpost]
        show ((((((g.board.set tgt (some ⟨Kind.king, pl, fm, hm⟩)).set f
            none).set tgt (some ⟨Kind.king, pl, fm, true⟩)).set rt
            (some { rp with hasMoved := true })).set rsq none)) rt =
          some { rp with hasMoved := true }
        rw [Board.set_other _ _ _ _ hne_rt_rsq, Board.set_self]
      · rw [hp2, hpost]
        show ((((((g.board.set tgt (some ⟨Kind.king, pl, fm, hm⟩)).set f
            none).set tgt (some ⟨Kind.king, pl, fm, true⟩)).set rt
            (some { rp with hasMoved := true })).set rsq none)) rsq = none
        rw [Board.set_self]
      · rw [hp2, hpost]
        show ((((((g.board.set tgt (some ⟨Kind.king, pl, fm, hm⟩)).set f
            none).set tgt (some ⟨Kind.king, pl, fm, true⟩)).set rt
            (some { rp with hasMoved := true })).set rsq none)) tgt =
          some ⟨Kind.king, pl, fm, true⟩
        rw [Board.set_other _ _ _ _ hne_tgt_rsq,
          Board.set_other _ _ _ _ hne_tgt_rt, Board.set_self]

end PyChess

namespace PyChess

/-- A castling-ready position: player 1's unmoved king on (0,3), an
unmoved rook on (0,6), player 2's king far away on (7,3). -/
def gC6 : Game :=
  { board := boardOfList
      [(((0 : Fin 8), (3 : Fin 8)), ⟨Kind.king, Player.one, true, false⟩),
       (((0 : Fin 8), (6 : Fin 8)), ⟨Kind.rook, Player.one, true, false⟩),
       (((7 : Fin 8), (3 : Fin 8)), ⟨Kind.king, Player.two, true, false⟩)]
    currentPlayer := Player.one
    epTarget := none
    halfmoveClock := 0 }

/-- Witness for C6: the concrete castle (0,3) → (0,5) executes, and the
rook relocation and flag conclusions are obtained from the theorem. -/
theorem c6_castling_witness :
    (pieceMove gC6 ((0 : Fin 8), (3 : Fin 8)) ((0 : Fin 8), (5 : Fin 8))).1 =
      true ∧
    (∃ rf rt : Sq, ∃ rp : Piece,
      (rf.1 : Int) = ((0 : Fin 8) : Int) ∧
      (rt.1 : Int) = ((0 : Fin 8) : Int) ∧
      (rf.2 : Int) = (if ((3 : Fin 8) : Nat) < ((5 : Fin 8) : Nat) then
                        ((5 : Fin 8) : Int) + 1
                      else ((5 : Fin 8) : Int) - 2) ∧
      (rt.2 : Int) = (if ((3 : Fin 8) : Nat) < ((5 : Fin 8) : Nat) then
                        ((5 : Fin 8) : Int) - 1
                      else ((5 : Fin 8) : Int) + 1) ∧
      gC6.board rf = some rp ∧ rp.kind = Kind.rook ∧
      (pieceMove gC6 ((0 : Fin 8), (3 : Fin 8))
          ((0 : Fin 8), (5 : Fin 8))).2.board rt =
        some { rp with hasMoved := true } ∧
      (pieceMove gC6 ((0 : Fin 8), (3 : Fin 8))
          ((0 : Fin 8), (5 : Fin 8))).2.board rf = none ∧
      (pieceMove gC6 ((0 : Fin 8), (3 : Fin 8))
          ((0 : Fin 8), (5 : Fin 8))).2.board ((0 : Fin 8), (5 : Fin 8)) =
        some { (⟨Kind.king, Player.one, true, false⟩ : Piece) with
                 hasMoved := true }) :=
  ⟨by decide,
   (c6_castling gC6 ⟨Kind.king, Player.one, true, false⟩
      ((0 : Fin 8), (3 : Fin 8)) ((0 : Fin 8), (5 : Fin 8)) rfl (by decide)
      (by decide)).2 (by decide)⟩

end PyChess
